import Mathlib

/-!
Verification of the MCP tool-dispatch handler of the create-t3-turbo-labrys
repository.

Sources embedded here:
* `packages/mcp/src/index.ts` — the four arithmetic tools (`add`, `subtract`,
  `multiply`, `divide`), each building a `ToolResult` whose single text block
  is the JSON serialization of a payload object.
* the CRUD variant of `packages/mcp/src/index.ts` — the four data tools
  (`list_posts`, `get_post`, `create_post`, `delete_post`), each wrapping its
  store calls in a try/catch that converts any fault into an
  `isError = true` result.

The external store (`@acme/db` client and the `Post` table) and the dispatch
library (`mcp-handler` with `zod` validation) are dependencies whose code is
not part of the repository; they are modelled from the specification where
noted below.
-/

namespace MCP

/-- JSON values, as produced by the handlers via `JSON.stringify`.  Numbers
are modelled as rationals (exact arithmetic stands in for JavaScript
numbers). -/
inductive Json where
  | str : String → Json
  | num : ℚ → Json
  | bool : Bool → Json
  | null : Json
  | arr : List Json → Json
  | obj : List (String × Json) → Json

/-- Escape of one character inside a JSON string literal, following
`JSON.stringify`. -/
def escapeChar (c : Char) : String :=
  if c = '"' then "\\\""
  else if c = '\\' then "\\\\"
  else if c = '\n' then "\\n"
  else String.singleton c

/-- Escape of a string body for a JSON string literal. -/
def escapeStr (s : String) : String :=
  String.join (s.toList.map escapeChar)

/-- Rendering of a rational as a JSON number token (integer values render as
plain integers). -/
def renderNum (q : ℚ) : String :=
  if q.den = 1 then toString q.num else toString q.num ++ "/" ++ toString q.den

mutual

/-- Serialization of a JSON value; models `JSON.stringify(v, null, 2)` up to
whitespace (the key/value separator is kept so that the serialized text of an
object contains the same key-colon-value fragments). -/
def Json.render : Json → String
  | .str s => "\"" ++ escapeStr s ++ "\""
  | .num q => renderNum q
  | .bool b => if b then "true" else "false"
  | .null => "null"
  | .arr xs => "[" ++ Json.renderList xs ++ "]"
  | .obj kvs => "\x7b" ++ Json.renderObj kvs ++ "\x7d"

/-- Comma-separated rendering of the elements of a JSON array. -/
def Json.renderList : List Json → String
  | [] => ""
  | [x] => Json.render x
  | x :: y :: xs => Json.render x ++ ", " ++ Json.renderList (y :: xs)

/-- Comma-separated rendering of the members of a JSON object. -/
def Json.renderObj : List (String × Json) → String
  | [] => ""
  | [(k, v)] => "\"" ++ escapeStr k ++ "\": " ++ Json.render v
  | (k, v) :: kv :: kvs =>
      "\"" ++ escapeStr k ++ "\": " ++ Json.render v ++ ", " ++
        Json.renderObj (kv :: kvs)

end

/-- Lookup of a top-level field of a JSON object. -/
def Json.lookup (k : String) : Json → Option Json
  | .obj kvs => (kvs.find? (fun kv => kv.1 == k)).map (·.2)
  | _ => none

/-- One content block of a tool result (`{ type: "text", text: ... }`). -/
structure ContentBlock where
  type : String
  text : String
  deriving DecidableEq

/-- Result of one tool invocation: an ordered sequence of content blocks and
an error flag (the source omits `isError` on success, which reads as
`false`). -/
structure ToolResult where
  content : List ContentBlock
  isError : Bool
  deriving DecidableEq

/-- Modelled from the spec: the record entity of the `Post` table of
`@acme/db/schema`, which is not part of the repository source.  Per the
spec's data model it has a store-generated unique string identifier, a title,
a content body, and a store-assigned creation timestamp. -/
structure Post where
  id : String
  title : String
  content : String
  createdAt : ℕ
  deriving DecidableEq

/-- JSON serialization of a post record, as it appears inside the handlers'
payload objects. -/
def Post.toJson (p : Post) : Json :=
  .obj [("id", .str p.id), ("title", .str p.title),
        ("content", .str p.content), ("createdAt", .num p.createdAt)]

/-- Modelled from the spec: the state of the external store (`@acme/db`
client, not part of the repository source): the current list of records plus
the identifier and the timestamp the store will assign to the next created
record. -/
structure DbState where
  posts : List Post
  fresh : String
  now : ℕ
  deriving DecidableEq

/-- Labels for the store operations a handler performs, in call order
(used to state how many store round-trips an invocation makes). -/
inductive StoreOp where
  | findManyByIdDesc (limit : ℕ)
  | findFirstById (id : String)
  | insertPost (title content : String)
  | deletePostById (id : String)
  deriving DecidableEq

/-- Lexicographic less-or-equal on character lists, the text ordering the
store uses to compare identifiers. -/
def listLeChars : List Char → List Char → Bool
  | [], _ => true
  | _ :: _, [] => false
  | a :: as, b :: bs =>
      if a < b then true else if b < a then false else listLeChars as bs

/-- Lexicographic less-or-equal on strings. -/
def strLe (a b : String) : Bool := listLeChars a.toList b.toList

/-- Insertion of a post into a list kept in descending identifier order. -/
def insertDescById (p : Post) : List Post → List Post
  | [] => [p]
  | q :: qs => if strLe q.id p.id then p :: q :: qs else q :: insertDescById p qs

/-- Sorting of a list of posts by descending identifier, the semantics of
the `orderBy: desc(Post.id)` clause the `list_posts` handler passes to the
store. -/
def sortByIdDesc : List Post → List Post
  | [] => []
  | p :: ps => insertDescById p (sortByIdDesc ps)

/-- Modelled from the spec: the store's `findMany` operation as called by
`list_posts` — records ordered by the given key (here the identifier,
descending) and truncated to the limit. -/
def findManyByIdDesc (limit : ℕ) (db : DbState) : List Post × DbState :=
  ((sortByIdDesc db.posts).take limit, db)

/-- Modelled from the spec: the store's `findFirst` lookup by identifier
(`where: eq(Post.id, id)`). -/
def findFirstById (id : String) (db : DbState) : Option Post × DbState :=
  (db.posts.find? (fun p => p.id == id), db)

/-- Modelled from the spec: the store's insert-returning operation — the
store assigns the identifier and the creation timestamp and returns the new
record. -/
def insertPost (title content : String) (db : DbState) : Post × DbState :=
  let p : Post := ⟨db.fresh, title, content, db.now⟩
  (p, ⟨db.posts ++ [p], db.fresh, db.now⟩)

/-- Modelled from the spec: the store's delete-by-identifier operation
(`db.delete(Post).where(eq(Post.id, id))`). -/
def deletePostById (id : String) (db : DbState) : Unit × DbState :=
  ((), ⟨db.posts.filter (fun p => !(p.id == id)), db.fresh, db.now⟩)

/-- One call into the external store.  A call either completes with the
honest store semantics or raises a fault; `fm = some m` models a store whose
calls fail with message `m` (the `error` caught by the handlers'
try/catch). -/
def callStore (fm : Option String) (comp : DbState → α × DbState)
    (db : DbState) : Except String (α × DbState) :=
  match fm with
  | some m => .error m
  | none => .ok (comp db)

/-- Error payload built in every catch block of the data tools:
`{ success: false, error: <message> }`, flagged `isError = true`. -/
def errPayload (m : String) : Json × Bool :=
  (.obj [("success", .bool false), ("error", .str m)], true)

/-- Handler of the `add` tool (`packages/mcp/src/index.ts`). -/
def add (a b : ℚ) : Json × Bool :=
  let result := a + b
  (.obj [("success", .bool true), ("result", .num result),
         ("operation", .str "add"),
         ("operands", .obj [("a", .num a), ("b", .num b)])], false)

/-- Handler of the `subtract` tool (`packages/mcp/src/index.ts`). -/
def subtract (a b : ℚ) : Json × Bool :=
  let result := a - b
  (.obj [("success", .bool true), ("result", .num result),
         ("operation", .str "subtract"),
         ("operands", .obj [("a", .num a), ("b", .num b)])], false)

/-- Handler of the `multiply` tool (`packages/mcp/src/index.ts`). -/
def multiply (a b : ℚ) : Json × Bool :=
  let result := a * b
  (.obj [("success", .bool true), ("result", .num result),
         ("operation", .str "multiply"),
         ("operands", .obj [("a", .num a), ("b", .num b)])], false)

/-- Handler of the `divide` tool (`packages/mcp/src/index.ts`): an explicit
division-by-zero branch returns a domain error without throwing. -/
def divide (a b : ℚ) : Json × Bool :=
  if b = 0 then
    (.obj [("success", .bool false),
           ("error", .str "Division by zero is not allowed")], true)
  else
    let result := a / b
    (.obj [("success", .bool true), ("result", .num result),
           ("operation", .str "divide"),
           ("operands", .obj [("a", .num a), ("b", .num b)])], false)

/-- Handler of the `list_posts` tool: one `findMany` store call ordered by
descending identifier, wrapped in try/catch. -/
def list_posts (limit : ℕ) (fm : Option String) (db : DbState) :
    (Json × Bool) × DbState × List StoreOp :=
  match callStore fm (findManyByIdDesc limit) db with
  | .ok (posts, db1) =>
      ((.obj [("success", .bool true), ("count", .num posts.length),
              ("posts", .arr (posts.map Post.toJson))], false),
       db1, [.findManyByIdDesc limit])
  | .error m => (errPayload m, db, [.findManyByIdDesc limit])

/-- Handler of the `get_post` tool: one `findFirst` store call wrapped in
try/catch, with an explicit not-found branch. -/
def get_post (id : String) (fm : Option String) (db : DbState) :
    (Json × Bool) × DbState × List StoreOp :=
  match callStore fm (findFirstById id) db with
  | .ok (some p, db1) =>
      ((.obj [("success", .bool true), ("post", p.toJson)], false),
       db1, [.findFirstById id])
  | .ok (none, db1) =>
      ((.obj [("success", .bool false),
              ("error", .str ("Post with ID " ++ id ++ " not found"))], true),
       db1, [.findFirstById id])
  | .error m => (errPayload m, db, [.findFirstById id])

/-- Handler of the `create_post` tool: one insert-returning store call
wrapped in try/catch. -/
def create_post (title content : String) (fm : Option String) (db : DbState) :
    (Json × Bool) × DbState × List StoreOp :=
  match callStore fm (insertPost title content) db with
  | .ok (newPost, db1) =>
      ((.obj [("success", .bool true), ("post", newPost.toJson)], false),
       db1, [.insertPost title content])
  | .error m => (errPayload m, db, [.insertPost title content])

/-- Handler of the `delete_post` tool: a `findFirst` lookup, an explicit
not-found branch, and — when the record exists — a second store call that
deletes it, all inside one try/catch. -/
def delete_post (id : String) (fm : Option String) (db : DbState) :
    (Json × Bool) × DbState × List StoreOp :=
  match callStore fm (findFirstById id) db with
  | .ok (some deletedPost, db1) =>
      match callStore fm (deletePostById id) db1 with
      | .ok (_, db2) =>
          ((.obj [("success", .bool true),
                  ("message", .str ("Post " ++ id ++ " deleted successfully")),
                  ("deletedPost", deletedPost.toJson)], false),
           db2, [.findFirstById id, .deletePostById id])
      | .error m =>
          (errPayload m, db1, [.findFirstById id, .deletePostById id])
  | .ok (none, db1) =>
      ((.obj [("success", .bool false),
              ("error", .str ("Post with ID " ++ id ++ " not found"))], true),
       db1, [.findFirstById id])
  | .error m => (errPayload m, db, [.findFirstById id])

/-- Test for a hexadecimal digit. -/
def isHexDigit (c : Char) : Bool :=
  ('0' ≤ c && c ≤ '9') || ('a' ≤ c && c ≤ 'f') || ('A' ≤ c && c ≤ 'F')

/-- Split of a character list at every hyphen. -/
def splitOnDash : List Char → List (List Char)
  | [] => [[]]
  | c :: cs =>
      let r := splitOnDash cs
      if c = '-' then [] :: r
      else
        match r with
        | [] => [[c]]
        | g :: gs => (c :: g) :: gs

/-- Modelled from the spec: the `z.string().uuid()` identifier-format check —
zod is a library dependency not part of the repository.  The identifier must
consist of five hyphen-separated hexadecimal groups of lengths
8, 4, 4, 4 and 12. -/
def isUuid (s : String) : Bool :=
  match splitOnDash s.toList with
  | [g1, g2, g3, g4, g5] =>
      g1.length == 8 && g2.length == 4 && g3.length == 4 &&
        g4.length == 4 && g5.length == 12 &&
        (g1 ++ g2 ++ g3 ++ g4 ++ g5).all isHexDigit
  | _ => false

/-- Test that the second list occurs at the head of the first. -/
def startsWithL : List Char → List Char → Bool
  | _, [] => true
  | [], _ :: _ => false
  | a :: as, b :: bs => a = b && startsWithL as bs

/-- Test that the second list occurs as a contiguous segment of the first. -/
def containsSeg : List Char → List Char → Bool
  | s, pat =>
      if startsWithL s pat then true
      else
        match s with
        | [] => false
        | _ :: rest => containsSeg rest pat

/-- Test that the pattern occurs as a contiguous substring of the string. -/
def strContains (s pat : String) : Bool :=
  containsSeg s.toList pat.toList

/-- Raw invocation arguments as received by the dispatch layer: a mapping
from parameter name to JSON value. -/
def RawArgs := List (String × Json)

/-- Lookup of a raw argument by parameter name. -/
def getField (args : RawArgs) (k : String) : Option Json :=
  (List.find? (fun kv => kv.1 == k) args).map (·.2)

/-- The four arithmetic operations of `packages/mcp/src/index.ts`. -/
inductive ArithOp where
  | add | subtract | multiply | divide
  deriving DecidableEq

/-- Arguments of one tool after schema validation and defaulting. -/
inductive Typed where
  | arith (op : ArithOp) (a b : ℚ)
  | listP (limit : ℕ)
  | getP (id : String)
  | createP (title content : String)
  | deleteP (id : String)
  deriving DecidableEq

/-- Validation of the shared `{ a: z.number(), b: z.number() }` schema of
the arithmetic tools. -/
def validateNums (args : RawArgs) : Option (ℚ × ℚ) :=
  match getField args "a", getField args "b" with
  | some (.num a), some (.num b) => some (a, b)
  | _, _ => none

/-- Modelled from the spec: schema validation and defaulting as performed by
the dispatch layer (`mcp-handler` applying the zod schemas — both library
dependencies not part of the repository).  The schema of each tool is
transcribed from its `inputSchema` declaration in the source:
`add`/`subtract`/`multiply`/`divide` take two numbers; `list_posts` takes
`z.number().int().min(1).max(100).optional().default(10)`; `get_post` and
`delete_post` take `z.string().uuid()`; `create_post` takes
`z.string().min(1).max(256)` for both title and content. -/
def validate (name : String) (args : RawArgs) : Option Typed :=
  match name with
  | "add" => (validateNums args).map fun ab => .arith .add ab.1 ab.2
  | "subtract" => (validateNums args).map fun ab => .arith .subtract ab.1 ab.2
  | "multiply" => (validateNums args).map fun ab => .arith .multiply ab.1 ab.2
  | "divide" => (validateNums args).map fun ab => .arith .divide ab.1 ab.2
  | "list_posts" =>
      match getField args "limit" with
      | none => some (.listP 10)
      | some (.num q) =>
          if q.den = 1 ∧ 1 ≤ q ∧ q ≤ 100 then some (.listP q.num.toNat)
          else none
      | some _ => none
  | "get_post" =>
      match getField args "id" with
      | some (.str id) => if isUuid id then some (.getP id) else none
      | _ => none
  | "create_post" =>
      match getField args "title", getField args "content" with
      | some (.str t), some (.str c) =>
          if 1 ≤ t.length ∧ t.length ≤ 256 ∧
              1 ≤ c.length ∧ c.length ≤ 256 then some (.createP t c)
          else none
      | _, _ => none
  | "delete_post" =>
      match getField args "id" with
      | some (.str id) => if isUuid id then some (.deleteP id) else none
      | _ => none
  | _ => none

/-- Names registered by the two `createMcpHandler` variants. -/
def registeredTools : List String :=
  ["add", "subtract", "multiply", "divide",
   "list_posts", "get_post", "create_post", "delete_post"]

/-- Test that a tool name is registered. -/
def registered (name : String) : Bool := registeredTools.contains name

/-- Outcome of one dispatch: unknown tool and invalid arguments are rejected
before any handler runs; everything else is a `ToolResult`. -/
inductive Outcome where
  | unknownTool
  | invalidArgs
  | result (r : ToolResult)
  deriving DecidableEq

/-- Execution of one validated invocation by the registered handler,
returning the payload object and error flag, the resulting store state, and
the store calls performed in order. -/
def run : Typed → Option String → DbState → (Json × Bool) × DbState × List StoreOp
  | .arith .add a b, _, db => (add a b, db, [])
  | .arith .subtract a b, _, db => (subtract a b, db, [])
  | .arith .multiply a b, _, db => (multiply a b, db, [])
  | .arith .divide a b, _, db => (divide a b, db, [])
  | .listP limit, fm, db => list_posts limit fm db
  | .getP id, fm, db => get_post id fm db
  | .createP t c, fm, db => create_post t c fm db
  | .deleteP id, fm, db => delete_post id fm db

/-- Wrapping of a handler's payload object into the `ToolResult` shape every
handler returns: a single text block holding the serialized payload. -/
def mkResult (j : Json) (e : Bool) : ToolResult :=
  ⟨[⟨"text", Json.render j⟩], e⟩

/-- Modelled from the spec: the dispatch contract of the `mcp-handler`
library (not part of the repository) — look up the tool, validate and
default the arguments, then run the registered handler; unknown tools and
invalid arguments are rejected before any handler or store call. -/
def invoke (name : String) (args : RawArgs) (fm : Option String)
    (db : DbState) : Outcome × DbState × List StoreOp :=
  match validate name args with
  | some t =>
      let x := run t fm db
      (.result (mkResult x.1.1 x.1.2), x.2.1, x.2.2)
  | none =>
      if registered name then (.invalidArgs, db, []) else (.unknownTool, db, [])

/-- A well-formed identifier used by concrete instances below (the nil
UUID, accepted by the identifier-format check). -/
def uuid0 : String := "00000000-0000-0000-0000-000000000000"

/-- An empty store state used by concrete instances below. -/
def dbEmpty : DbState := ⟨[], uuid0, 0⟩

/-- A post created after `postOlder` but with a smaller store-generated
identifier. -/
def postNewer : Post :=
  ⟨"aaaaaaaa-0000-0000-0000-000000000000", "newer", "n", 2⟩

/-- A post created before `postNewer` but with a larger store-generated
identifier. -/
def postOlder : Post :=
  ⟨"bbbbbbbb-0000-0000-0000-000000000000", "older", "o", 1⟩

/-- A store holding the two posts above. -/
def dbTwoPosts : DbState := ⟨[postNewer, postOlder], uuid0, 5⟩

lemma startsWithL_append_self (p rest : List Char) :
    startsWithL (p ++ rest) p = true := by
  induction p with
  | nil => cases rest <;> rfl
  | cons a as ih => simp [startsWithL, ih]

lemma containsSeg_append (pre pat rest : List Char) :
    containsSeg (pre ++ (pat ++ rest)) pat = true := by
  induction pre with
  | nil =>
      unfold containsSeg
      simp only [List.nil_append]
      rw [startsWithL_append_self]
      simp
  | cons c cs ih =>
      unfold containsSeg
      split
      · rfl
      · simpa using ih

lemma strContains_append (pre pat post : String) :
    strContains (pre ++ pat ++ post) pat = true := by
  unfold strContains
  have h1 : (pre ++ pat ++ post).toList = pre.toList ++ (pat.toList ++ post.toList) := by
    simp [String.toList, String.data_append, List.append_assoc]
  rw [h1]
  exact containsSeg_append _ _ _

lemma find?_append_of_none {α} (f : α → Bool) (l1 l2 : List α)
    (h : l1.find? f = none) : (l1 ++ l2).find? f = l2.find? f := by
  induction l1 with
  | nil => rfl
  | cons a as ih =>
      rcases hf : f a with _ | _
      · simp only [List.cons_append, List.find?_cons, hf] at h ⊢
        exact ih h
      · simp [List.find?_cons, hf] at h

end MCP

namespace MCP

/-- C5: for every pair of numbers, the `add` tool succeeds with payload
`{success: true, result: a + b, operation: "add", operands: {a, b}}`,
performing no store call; at `a = 2`, `b = 3` the result field is `5`. -/
theorem add_tool_payload (a b : ℚ) (fm : Option String) (db : DbState) :
    invoke "add" [("a", .num a), ("b", .num b)] fm db =
      (.result (mkResult (Json.obj
        [("success", .bool true), ("result", .num (a + b)),
         ("operation", .str "add"),
         ("operands", .obj [("a", .num a), ("b", .num b)])]) false),
       db, []) := rfl

/-- C2: the `divide` tool returns an error result exactly on a zero divisor:
with `b = 0` it returns `isError = true` with payload containing
`"Division by zero is not allowed"` without throwing, and with `b ≠ 0` it
succeeds with the quotient `a / b`. -/
theorem divide_tool_zero_divisor (a b : ℚ) (fm : Option String) (db : DbState) :
    (b = 0 →
      invoke "divide" [("a", .num a), ("b", .num b)] fm db =
        (.result (mkResult (Json.obj
          [("success", .bool false),
           ("error", .str "Division by zero is not allowed")]) true), db, []) ∧
      strContains
        (Json.render (Json.obj
          [("success", .bool false),
           ("error", .str "Division by zero is not allowed")]))
        "Division by zero is not allowed" = true) ∧
    (b ≠ 0 →
      invoke "divide" [("a", .num a), ("b", .num b)] fm db =
        (.result (mkResult (Json.obj
          [("success", .bool true), ("result", .num (a / b)),
           ("operation", .str "divide"),
           ("operands", .obj [("a", .num a), ("b", .num b)])]) false),
         db, [])) := by
  constructor
  · intro hb
    subst hb
    exact ⟨rfl, by decide⟩
  · intro hb
    have hd : divide a b =
        (Json.obj [("success", .bool true), ("result", .num (a / b)),
          ("operation", .str "divide"),
          ("operands", .obj [("a", .num a), ("b", .num b)])], false) := by
      unfold divide
      rw [if_neg hb]
    show (Outcome.result (mkResult (divide a b).1 (divide a b).2),
        db, ([] : List StoreOp)) = _
    rw [hd]

/-- C2 witness: concrete instances `divide(10, 0)` and `divide(10, 2)`. -/
theorem divide_tool_zero_divisor_check :
    (invoke "divide" [("a", .num 10), ("b", .num 0)] none dbEmpty =
      (.result (mkResult (Json.obj
        [("success", .bool false),
         ("error", .str "Division by zero is not allowed")]) true),
       dbEmpty, []) ∧
      strContains
        (Json.render (Json.obj
          [("success", .bool false),
           ("error", .str "Division by zero is not allowed")]))
        "Division by zero is not allowed" = true) ∧
    invoke "divide" [("a", .num 10), ("b", .num 2)] none dbEmpty =
      (.result (mkResult (Json.obj
        [("success", .bool true), ("result", .num (10 / 2 : ℚ)),
         ("operation", .str "divide"),
         ("operands", .obj [("a", .num 10), ("b", .num 2)])]) false),
       dbEmpty, []) :=
  ⟨(divide_tool_zero_divisor 10 0 none dbEmpty).1 rfl,
   (divide_tool_zero_divisor 10 2 none dbEmpty).2 (by decide)⟩

lemma run_success_field (t : Typed) (fm : Option String) (db : DbState) :
    ((run t fm db).1.1.lookup "success" = some (.bool true) ∧
      (run t fm db).1.2 = false) ∨
    ((run t fm db).1.1.lookup "success" = some (.bool false) ∧
      (run t fm db).1.2 = true) := by
  cases t with
  | arith op a b =>
      cases op with
      | add => exact .inl ⟨rfl, rfl⟩
      | subtract => exact .inl ⟨rfl, rfl⟩
      | multiply => exact .inl ⟨rfl, rfl⟩
      | divide =>
          by_cases hb : b = 0
          · refine .inr ⟨?_, ?_⟩ <;> simp [run, divide, hb, Json.lookup]
          · refine .inl ⟨?_, ?_⟩ <;> simp [run, divide, hb, Json.lookup]
  | listP l =>
      cases fm with
      | none => exact .inl ⟨rfl, rfl⟩
      | some m => exact .inr ⟨rfl, rfl⟩
  | getP i =>
      cases fm with
      | some m => exact .inr ⟨rfl, rfl⟩
      | none =>
          rcases hf : db.posts.find? (fun p => p.id == i) with _ | p
          · refine .inr ⟨?_, ?_⟩ <;>
              simp [run, get_post, callStore, findFirstById, hf, Json.lookup]
          · refine .inl ⟨?_, ?_⟩ <;>
              simp [run, get_post, callStore, findFirstById, hf, Json.lookup]
  | createP a b =>
      cases fm with
      | none => exact .inl ⟨rfl, rfl⟩
      | some m => exact .inr ⟨rfl, rfl⟩
  | deleteP i =>
      cases fm with
      | some m => exact .inr ⟨rfl, rfl⟩
      | none =>
          rcases hf : db.posts.find? (fun p => p.id == i) with _ | p
          · refine .inr ⟨?_, ?_⟩ <;>
              simp [run, delete_post, callStore, findFirstById, hf, Json.lookup]
          · refine .inl ⟨?_, ?_⟩ <;>
              simp [run, delete_post, callStore, findFirstById, deletePostById,
                hf, Json.lookup]

/-- C8: every `ToolResult` an invocation produces — success, domain error,
or caught fault — has a non-empty content sequence. -/
theorem result_content_nonempty (name : String) (args : RawArgs)
    (fm : Option String) (db : DbState) (r : ToolResult)
    (h : (invoke name args fm db).1 = .result r) : r.content ≠ [] := by
  unfold invoke at h
  rcases hv : validate name args with _ | t
  · rw [hv] at h
    by_cases hr : registered name <;> simp [hr] at h
  · rw [hv] at h
    simp only [Outcome.result.injEq] at h
    rw [← h]
    simp [mkResult]

/-- C8 witness: a concrete invocation of `add` produces a non-empty content
sequence. -/
theorem result_content_nonempty_check :
    (mkResult (add 2 3).1 (add 2 3).2).content ≠ [] :=
  result_content_nonempty "add" [("a", .num 2), ("b", .num 3)] none dbEmpty
    (mkResult (add 2 3).1 (add 2 3).2) rfl

/-- C10: a returned `ToolResult` has `isError = true` exactly when its
payload object carries `success: false`, and `isError = false` exactly when
it carries `success: true`. -/
theorem result_isError_iff_payload_failure (name : String) (args : RawArgs)
    (fm : Option String) (db : DbState) (r : ToolResult)
    (h : (invoke name args fm db).1 = .result r) :
    ∃ j : Json, r.content = [⟨"text", Json.render j⟩] ∧
      (r.isError = true ↔ j.lookup "success" = some (.bool false)) ∧
      (r.isError = false ↔ j.lookup "success" = some (.bool true)) := by
  unfold invoke at h
  rcases hv : validate name args with _ | t
  · rw [hv] at h
    by_cases hr : registered name <;> simp [hr] at h
  · rw [hv] at h
    simp only [Outcome.result.injEq] at h
    rw [← h]
    refine ⟨(run t fm db).1.1, rfl, ?_, ?_⟩ <;>
      rcases run_success_field t fm db with ⟨h1, h2⟩ | ⟨h1, h2⟩ <;>
        simp [mkResult, h1, h2]

/-- C10 witness: a concrete invocation of `subtract` relates its error flag
to the `success` field of its payload. -/
theorem result_isError_iff_payload_failure_check :
    ∃ j : Json,
      (mkResult (subtract 5 3).1 (subtract 5 3).2).content =
        [⟨"text", Json.render j⟩] ∧
      ((mkResult (subtract 5 3).1 (subtract 5 3).2).isError = true ↔
        j.lookup "success" = some (.bool false)) ∧
      ((mkResult (subtract 5 3).1 (subtract 5 3).2).isError = false ↔
        j.lookup "success" = some (.bool true)) :=
  result_isError_iff_payload_failure "subtract"
    [("a", .num 5), ("b", .num 3)] none dbEmpty
    (mkResult (subtract 5 3).1 (subtract 5 3).2) rfl

lemma validate_list_posts_shape (args : RawArgs) (t : Typed)
    (h : validate "list_posts" args = some t) : ∃ l, t = .listP l := by
  have h0 : validate "list_posts" args =
      (match getField args "limit" with
       | none => some (.listP 10)
       | some (.num q) =>
           if q.den = 1 ∧ 1 ≤ q ∧ q ≤ 100 then some (.listP q.num.toNat)
           else none
       | some _ => none) := rfl
  rw [h0] at h
  rcases hg : getField args "limit" with _ | j
  · rw [hg] at h
    injection h with h2
    exact ⟨10, h2.symm⟩
  · rw [hg] at h
    cases j with
    | num q =>
        have h2 : (if q.den = 1 ∧ 1 ≤ q ∧ q ≤ 100 then
            some (Typed.listP q.num.toNat) else none) = some t := h
        by_cases hq : q.den = 1 ∧ 1 ≤ q ∧ q ≤ 100
        · rw [if_pos hq] at h2
          injection h2 with h3
          exact ⟨q.num.toNat, h3.symm⟩
        · rw [if_neg hq] at h2
          cases h2
    | str s => cases h
    | bool b => cases h
    | null => cases h
    | arr xs => cases h
    | obj kvs => cases h

lemma validate_get_post_shape (args : RawArgs) (t : Typed)
    (h : validate "get_post" args = some t) : ∃ i, t = .getP i := by
  have h0 : validate "get_post" args =
      (match getField args "id" with
       | some (.str id) => if isUuid id then some (.getP id) else none
       | _ => none) := rfl
  rw [h0] at h
  rcases hg : getField args "id" with _ | j
  · rw [hg] at h; cases h
  · rw [hg] at h
    cases j with
    | str s =>
        have h2 : (if isUuid s then some (Typed.getP s) else none) = some t := h
        by_cases hs : isUuid s = true
        · simp only [hs, if_true] at h2
          injection h2 with h3
          exact ⟨s, h3.symm⟩
        · simp only [hs, if_false] at h2
          cases h2
    | num q => cases h
    | bool b => cases h
    | null => cases h
    | arr xs => cases h
    | obj kvs => cases h

lemma validate_create_post_shape (args : RawArgs) (t : Typed)
    (h : validate "create_post" args = some t) : ∃ a b, t = .createP a b := by
  have h0 : validate "create_post" args =
      (match getField args "title", getField args "content" with
       | some (.str a), some (.str b) =>
           if 1 ≤ a.length ∧ a.length ≤ 256 ∧
               1 ≤ b.length ∧ b.length ≤ 256 then some (.createP a b)
           else none
       | _, _ => none) := rfl
  rw [h0] at h
  rcases hg1 : getField args "title" with _ | j1 <;> rw [hg1] at h
  · cases h
  · rcases hg2 : getField args "content" with _ | j2 <;> rw [hg2] at h
    · cases j1 <;> cases h
    · cases j1 <;> cases j2 <;> try cases h
      rename_i a b
      have h2 : (if 1 ≤ a.length ∧ a.length ≤ 256 ∧
          1 ≤ b.length ∧ b.length ≤ 256 then
          some (Typed.createP a b) else none) = some t := h
      by_cases hl : 1 ≤ a.length ∧ a.length ≤ 256 ∧ 1 ≤ b.length ∧ b.length ≤ 256
      · rw [if_pos hl] at h2
        injection h2 with h3
        exact ⟨a, b, h3.symm⟩
      · rw [if_neg hl] at h2
        cases h2

lemma validate_delete_post_shape (args : RawArgs) (t : Typed)
    (h : validate "delete_post" args = some t) : ∃ i, t = .deleteP i := by
  have h0 : validate "delete_post" args =
      (match getField args "id" with
       | some (.str id) => if isUuid id then some (.deleteP id) else none
       | _ => none) := rfl
  rw [h0] at h
  rcases hg : getField args "id" with _ | j
  · rw [hg] at h; cases h
  · rw [hg] at h
    cases j with
    | str s =>
        have h2 : (if isUuid s then some (Typed.deleteP s) else none) = some t := h
        by_cases hs : isUuid s = true
        · simp only [hs, if_true] at h2
          injection h2 with h3
          exact ⟨s, h3.symm⟩
        · simp only [hs, if_false] at h2
          cases h2
    | num q => cases h
    | bool b => cases h
    | null => cases h
    | arr xs => cases h
    | obj kvs => cases h

/-- C1: for every registered tool and schema-conforming argument set,
`invoke` returns a `ToolResult` (no fault escapes the dispatch boundary),
and each of the four data tools converts every fault raised by its store
call into a `ToolResult` with `isError = true` carrying the fault message. -/
theorem invoke_conforming_never_throws (name : String) (args : RawArgs)
    (fm : Option String) (db : DbState)
    (h : (validate name args).isSome = true) :
    (∃ r : ToolResult, (invoke name args fm db).1 = .result r) ∧
    (∀ m : String,
      name = "list_posts" ∨ name = "get_post" ∨ name = "create_post" ∨
        name = "delete_post" →
      ∃ r : ToolResult, (invoke name args (some m) db).1 = .result r ∧
        r.isError = true ∧
        r.content = [⟨"text", Json.render (errPayload m).1⟩]) := by
  obtain ⟨t, ht⟩ := Option.isSome_iff_exists.mp h
  constructor
  · refine ⟨mkResult (run t fm db).1.1 (run t fm db).1.2, ?_⟩
    unfold invoke
    rw [ht]
  · intro m hname
    rcases hname with h1 | h1 | h1 | h1
    · subst h1
      obtain ⟨l, hl⟩ := validate_list_posts_shape _ _ ht
      subst hl
      refine ⟨mkResult (errPayload m).1 true, ?_, rfl, rfl⟩
      unfold invoke
      rw [ht]
      rfl
    · subst h1
      obtain ⟨i, hi⟩ := validate_get_post_shape _ _ ht
      subst hi
      refine ⟨mkResult (errPayload m).1 true, ?_, rfl, rfl⟩
      unfold invoke
      rw [ht]
      rfl
    · subst h1
      obtain ⟨a, b, hab⟩ := validate_create_post_shape _ _ ht
      subst hab
      refine ⟨mkResult (errPayload m).1 true, ?_, rfl, rfl⟩
      unfold invoke
      rw [ht]
      rfl
    · subst h1
      obtain ⟨i, hi⟩ := validate_delete_post_shape _ _ ht
      subst hi
      refine ⟨mkResult (errPayload m).1 true, ?_, rfl, rfl⟩
      unfold invoke
      rw [ht]
      rfl

/-- C1 witness: a concrete conforming `get_post` invocation returns a
`ToolResult`, and under a store fault it returns an error `ToolResult`. -/
theorem invoke_conforming_never_throws_check :
    (∃ r : ToolResult,
      (invoke "get_post" [("id", Json.str uuid0)] none dbEmpty).1 =
        .result r) ∧
    (∃ r : ToolResult,
      (invoke "get_post" [("id", Json.str uuid0)]
          (some "connection lost") dbEmpty).1 = .result r ∧
        r.isError = true ∧
        r.content = [⟨"text", Json.render (errPayload "connection lost").1⟩]) :=
  ⟨(invoke_conforming_never_throws "get_post" [("id", Json.str uuid0)] none
      dbEmpty (by decide)).1,
   (invoke_conforming_never_throws "get_post" [("id", Json.str uuid0)] none
      dbEmpty (by decide)).2 "connection lost" (Or.inr (Or.inl rfl))⟩

/-- C7: the `list_posts` limit is an optional integer defaulting to 10 with
bounds 1 to 100; an out-of-bounds or non-integer limit is rejected at
validation, with no store call made. -/
theorem list_posts_limit_schema (q : ℚ) (fm : Option String) (db : DbState) :
    validate "list_posts" [] = some (.listP 10) ∧
    (¬(q.den = 1 ∧ 1 ≤ q ∧ q ≤ 100) →
      invoke "list_posts" [("limit", .num q)] fm db =
        (.invalidArgs, db, [])) ∧
    ((q.den = 1 ∧ 1 ≤ q ∧ q ≤ 100) →
      validate "list_posts" [("limit", .num q)] =
        some (.listP q.num.toNat)) := by
  have h0 : validate "list_posts" [("limit", Json.num q)] =
      (if q.den = 1 ∧ 1 ≤ q ∧ q ≤ 100 then some (Typed.listP q.num.toNat)
       else none) := rfl
  refine ⟨rfl, ?_, ?_⟩
  · intro hq
    unfold invoke
    rw [h0, if_neg hq]
    rfl
  · intro hq
    rw [h0, if_pos hq]

/-- C7 witness: the omitted limit defaults to 10, and `limit = 101` is
rejected at validation before any store call. -/
theorem list_posts_limit_schema_check :
    validate "list_posts" [] = some (.listP 10) ∧
    invoke "list_posts" [("limit", Json.num 101)] none dbEmpty =
      (.invalidArgs, dbEmpty, []) :=
  ⟨(list_posts_limit_schema 101 none dbEmpty).1,
   (list_posts_limit_schema 101 none dbEmpty).2.1 (by decide)⟩


/-- C6: a well-formed identifier matching no stored record makes both
`get_post` and `delete_post` return `isError = true` with a message naming
the missing identifier, without throwing. -/
theorem get_delete_not_found (id : String) (db : DbState)
    (hu : isUuid id = true)
    (hid : ∀ p ∈ db.posts, p.id ≠ id) :
    (invoke "get_post" [("id", .str id)] none db).1 =
      .result (mkResult (Json.obj [("success", .bool false),
        ("error", .str ("Post with ID " ++ id ++ " not found"))]) true) ∧
    (invoke "delete_post" [("id", .str id)] none db).1 =
      .result (mkResult (Json.obj [("success", .bool false),
        ("error", .str ("Post with ID " ++ id ++ " not found"))]) true) ∧
    strContains ("Post with ID " ++ id ++ " not found") id = true := by
  have hf : db.posts.find? (fun p => p.id == id) = none := by
    rw [List.find?_eq_none]
    intro p hp
    simpa using hid p hp
  refine ⟨?_, ?_, strContains_append "Post with ID " id " not found"⟩
  · have hv : validate "get_post" [("id", Json.str id)] = some (.getP id) := by
      have h0 : validate "get_post" [("id", Json.str id)] =
          (if isUuid id then some (Typed.getP id) else none) := rfl
      rw [h0, if_pos hu]
    unfold invoke
    rw [hv]
    show Outcome.result
        (mkResult (get_post id none db).1.1 (get_post id none db).1.2) = _
    unfold get_post callStore findFirstById
    rw [hf]
  · have hv : validate "delete_post" [("id", Json.str id)] =
        some (.deleteP id) := by
      have h0 : validate "delete_post" [("id", Json.str id)] =
          (if isUuid id then some (Typed.deleteP id) else none) := rfl
      rw [h0, if_pos hu]
    unfold invoke
    rw [hv]
    show Outcome.result
        (mkResult (delete_post id none db).1.1 (delete_post id none db).1.2) = _
    unfold delete_post callStore findFirstById
    rw [hf]

/-- C6 witness: the nil UUID on an empty store makes both tools report the
identifier as not found. -/
theorem get_delete_not_found_check :
    (invoke "get_post" [("id", .str uuid0)] none dbEmpty).1 =
      .result (mkResult (Json.obj [("success", .bool false),
        ("error", .str ("Post with ID " ++ uuid0 ++ " not found"))]) true) ∧
    (invoke "delete_post" [("id", .str uuid0)] none dbEmpty).1 =
      .result (mkResult (Json.obj [("success", .bool false),
        ("error", .str ("Post with ID " ++ uuid0 ++ " not found"))]) true) ∧
    strContains ("Post with ID " ++ uuid0 ++ " not found") uuid0 = true :=
  get_delete_not_found uuid0 dbEmpty (by decide) (by simp [dbEmpty])

/-- C9: creating a post with valid field lengths returns the new record with
the store-generated identifier, and a subsequent `get_post` with that
identifier returns a record whose title and content match. -/
theorem create_then_get_roundtrip (title content : String) (db : DbState)
    (ht1 : 1 ≤ title.length) (ht2 : title.length ≤ 256)
    (hc1 : 1 ≤ content.length) (hc2 : content.length ≤ 256)
    (hu : isUuid db.fresh = true)
    (hfresh : ∀ p ∈ db.posts, p.id ≠ db.fresh) :
    ∃ (p : Post) (db1 : DbState),
      invoke "create_post" [("title", .str title), ("content", .str content)]
          none db =
        (.result (mkResult (Json.obj [("success", .bool true),
          ("post", p.toJson)]) false), db1, [.insertPost title content]) ∧
      p.id = db.fresh ∧ p.title = title ∧ p.content = content ∧
      (invoke "get_post" [("id", .str p.id)] none db1).1 =
        .result (mkResult (Json.obj [("success", .bool true),
          ("post", p.toJson)]) false) := by
  refine ⟨⟨db.fresh, title, content, db.now⟩,
    ⟨db.posts ++ [⟨db.fresh, title, content, db.now⟩], db.fresh, db.now⟩,
    ?_, rfl, rfl, rfl, ?_⟩
  · have hv : validate "create_post"
        [("title", Json.str title), ("content", Json.str content)] =
        some (.createP title content) := by
      have h0 : validate "create_post"
          [("title", Json.str title), ("content", Json.str content)] =
          (if 1 ≤ title.length ∧ title.length ≤ 256 ∧
              1 ≤ content.length ∧ content.length ≤ 256 then
            some (Typed.createP title content)
          else none) := rfl
      rw [h0, if_pos ⟨ht1, ht2, hc1, hc2⟩]
    unfold invoke
    rw [hv]
    rfl
  · have hv2 : validate "get_post" [("id", Json.str db.fresh)] =
        some (.getP db.fresh) := by
      have h0 : validate "get_post" [("id", Json.str db.fresh)] =
          (if isUuid db.fresh then some (Typed.getP db.fresh) else none) := rfl
      rw [h0, if_pos hu]
    show (invoke "get_post" [("id", Json.str db.fresh)] none
        ⟨db.posts ++ [⟨db.fresh, title, content, db.now⟩],
          db.fresh, db.now⟩).1 = _
    unfold invoke
    rw [hv2]
    have hf2 : (db.posts ++ [⟨db.fresh, title, content, db.now⟩] :
        List Post).find? (fun p => p.id == db.fresh) =
        some ⟨db.fresh, title, content, db.now⟩ := by
      rw [find?_append_of_none]
      · simp [List.find?]
      · rw [List.find?_eq_none]
        intro p hp
        simpa using hfresh p hp
    show Outcome.result (mkResult
        (get_post db.fresh none
          ⟨db.posts ++ [⟨db.fresh, title, content, db.now⟩],
            db.fresh, db.now⟩).1.1
        (get_post db.fresh none
          ⟨db.posts ++ [⟨db.fresh, title, content, db.now⟩],
            db.fresh, db.now⟩).1.2) = _
    unfold get_post callStore findFirstById
    rw [hf2]

/-- C9 witness: creating a post titled T with content C on an empty store
and reading it back through `get_post`. -/
theorem create_then_get_roundtrip_check :
    ∃ (p : Post) (db1 : DbState),
      invoke "create_post" [("title", .str "T"), ("content", .str "C")]
          none dbEmpty =
        (.result (mkResult (Json.obj [("success", .bool true),
          ("post", p.toJson)]) false), db1, [.insertPost "T" "C"]) ∧
      p.id = dbEmpty.fresh ∧ p.title = "T" ∧ p.content = "C" ∧
      (invoke "get_post" [("id", .str p.id)] none db1).1 =
        .result (mkResult (Json.obj [("success", .bool true),
          ("post", p.toJson)]) false) :=
  create_then_get_roundtrip "T" "C" dbEmpty (by decide) (by decide)
    (by decide) (by decide) (by decide) (by simp [dbEmpty])

lemma list_posts_trace (l : ℕ) (fm : Option String) (db : DbState) :
    (list_posts l fm db).2.2 = [.findManyByIdDesc l] := by
  cases fm <;> rfl

lemma get_post_trace (i : String) (fm : Option String) (db : DbState) :
    (get_post i fm db).2.2 = [.findFirstById i] := by
  unfold get_post callStore findFirstById
  cases fm with
  | some m => rfl
  | none =>
      rcases hf : db.posts.find? (fun p => p.id == i) with _ | p <;>
        simp [hf]

lemma create_post_trace (a b : String) (fm : Option String) (db : DbState) :
    (create_post a b fm db).2.2 = [.insertPost a b] := by
  cases fm <;> rfl

lemma delete_post_trace (i : String) (fm : Option String) (db : DbState) :
    (delete_post i fm db).2.2 = [.findFirstById i] ∨
    (delete_post i fm db).2.2 = [.findFirstById i, .deletePostById i] := by
  unfold delete_post callStore findFirstById deletePostById
  cases fm with
  | some m => exact .inl rfl
  | none =>
      rcases hf : db.posts.find? (fun p => p.id == i) with _ | p
      · left
        simp [hf]
      · right
        simp [hf]

/-- C4 counterexample: deleting an existing record performs two store calls
(the existence lookup, then the deletion), not exactly one. -/
theorem delete_post_performs_two_store_calls :
    (invoke "delete_post" [("id", Json.str uuid0)] none
        ⟨[⟨uuid0, "t", "c", 1⟩], uuid0, 5⟩).2.2.length = 2 ∧
    (invoke "delete_post" [("id", Json.str uuid0)] none
        ⟨[⟨uuid0, "t", "c", 1⟩], uuid0, 5⟩).2.2.length ≠ 1 :=
  ⟨rfl, by decide⟩

/-- C4 amended: `list_posts`, `get_post` and `create_post` each perform
exactly one store call per invocation; `delete_post` performs an existence
lookup and at most one further call that deletes the record, with no store
call after it. -/
theorem data_tools_store_call_counts (argsL argsG argsC argsD : RawArgs)
    (fm : Option String) (db : DbState) :
    (∀ t, validate "list_posts" argsL = some t →
      ∃ l, (invoke "list_posts" argsL fm db).2.2 = [.findManyByIdDesc l]) ∧
    (∀ t, validate "get_post" argsG = some t →
      ∃ i, (invoke "get_post" argsG fm db).2.2 = [.findFirstById i]) ∧
    (∀ t, validate "create_post" argsC = some t →
      ∃ a b, (invoke "create_post" argsC fm db).2.2 = [.insertPost a b]) ∧
    (∀ t, validate "delete_post" argsD = some t →
      ∃ i, (invoke "delete_post" argsD fm db).2.2 = [.findFirstById i] ∨
        (invoke "delete_post" argsD fm db).2.2 =
          [.findFirstById i, .deletePostById i]) := by
  refine ⟨?_, ?_, ?_, ?_⟩
  · intro t ht
    obtain ⟨l, hl⟩ := validate_list_posts_shape _ _ ht
    subst hl
    refine ⟨l, ?_⟩
    unfold invoke
    rw [ht]
    exact list_posts_trace l fm db
  · intro t ht
    obtain ⟨i, hi⟩ := validate_get_post_shape _ _ ht
    subst hi
    refine ⟨i, ?_⟩
    unfold invoke
    rw [ht]
    exact get_post_trace i fm db
  · intro t ht
    obtain ⟨a, b, hab⟩ := validate_create_post_shape _ _ ht
    subst hab
    refine ⟨a, b, ?_⟩
    unfold invoke
    rw [ht]
    exact create_post_trace a b fm db
  · intro t ht
    obtain ⟨i, hi⟩ := validate_delete_post_shape _ _ ht
    subst hi
    refine ⟨i, ?_⟩
    unfold invoke
    rw [ht]
    exact delete_post_trace i fm db

/-- C4 witness: concrete conforming invocations of the four data tools and
their store-call traces. -/
theorem data_tools_store_call_counts_check :
    (∃ l, (invoke "list_posts" [] none dbEmpty).2.2 =
      [.findManyByIdDesc l]) ∧
    (∃ i, (invoke "get_post" [("id", Json.str uuid0)] none dbEmpty).2.2 =
      [.findFirstById i]) ∧
    (∃ a b, (invoke "create_post"
      [("title", Json.str "T"), ("content", Json.str "C")] none
        dbEmpty).2.2 = [.insertPost a b]) ∧
    (∃ i, (invoke "delete_post" [("id", Json.str uuid0)] none
        dbEmpty).2.2 = [.findFirstById i] ∨
      (invoke "delete_post" [("id", Json.str uuid0)] none dbEmpty).2.2 =
        [.findFirstById i, .deletePostById i]) :=
  let h := data_tools_store_call_counts [] [("id", Json.str uuid0)]
    [("title", Json.str "T"), ("content", Json.str "C")]
    [("id", Json.str uuid0)] none dbEmpty
  ⟨h.1 _ rfl, h.2.1 _ rfl, h.2.2.1 _ rfl, h.2.2.2 _ rfl⟩

/-- C3: the `list_posts` handler orders by descending identifier
(`orderBy: desc(Post.id)`), not by creation date as its own description
states — on a store where the older record has the larger identifier, the
older record is returned first. -/
theorem list_posts_not_ordered_by_creation :
    postOlder.createdAt < postNewer.createdAt ∧
    (invoke "list_posts" [] none dbTwoPosts).1 =
      .result (mkResult (Json.obj [("success", .bool true),
        ("count", .num 2),
        ("posts", .arr [postOlder.toJson, postNewer.toJson])]) false) :=
  ⟨by decide, rfl⟩

end MCP
